import Mathlib

/-!
Verification development for the ESP32 turntable firmware
(`src/arduino/esp32_turntable/esp32_turntable.ino`).

The motion-sequencing engine is embedded shallowly:
* C `float` arithmetic is modelled by exact rationals (`ℚ`);
* the C cast `(int)` of a float is truncation toward zero (`truncQ`);
* `millis()` time and motor position are explicit state (`Motor`);
* the AccelStepper pulse-generation capability (an external collaborator)
  is modelled by an environment: for each repetition, a list of control
  ticks, each tick moving the position by some delta and advancing the
  clock; `stepper.run()` consumes one tick;
* the blocking loops are embedded as recursion over the tick lists,
  returning `none` when the environment is exhausted before either loop
  exit condition fires (a model artifact: real time always advances);
* Arduino `String(value, decimals)` formatting is `fmtQ`;
* the side effects of a call (driver-enable line, per-repetition motion,
  inter-repetition delays, the status report) are returned as data.
-/

namespace Turntable

/-! ### Mechanical constants and safety limits (lines 11-19) -/

def microsteps : ℤ := 16

def stepsPerRev : ℤ := 200 * microsteps

def gearRatio : ℚ := 4

def MAX_SPEED_RPM : ℚ := 60

def MAX_ACCELERATION_RPM_S : ℚ := 30

def DEFAULT_ACCELERATION_RPM_S : ℚ := 10

def DEFAULT_DECELERATION_RPM_S : ℚ := 10

/-! ### Unit converter (lines 28-34) -/

def rpmToStepsPerSec (rpm : ℚ) : ℚ :=
  rpm * (stepsPerRev : ℚ) * gearRatio / 60

def stepsPerSecToRpm (stepsPerSec : ℚ) : ℚ :=
  stepsPerSec * 60 / ((stepsPerRev : ℚ) * gearRatio)

/-! ### Truncation toward zero: the C cast from `float` to `int` -/

def truncQ (q : ℚ) : ℤ :=
  if 0 ≤ q then ⌊q⌋ else ⌈q⌉

/-! ### Arduino `String(float, decimals)` formatting -/

/-- Exactly `d` decimal digits of `n`, most significant first, zero padded. -/
def natDigitsPadded : ℕ → ℕ → List Char
  | 0, _ => []
  | d + 1, n => natDigitsPadded d (n / 10) ++ [Char.ofNat (48 + n % 10)]

/-- Arduino `String(value, decimals)`: fixed-point rendering with exactly
`d` digits after the decimal point, rounding at the last kept digit. -/
def fmtQ (q : ℚ) (d : ℕ) : String :=
  let scaled : ℕ := (⌊|q| * 10 ^ d + 1 / 2⌋).toNat
  let ip := scaled / 10 ^ d
  let fp := scaled % 10 ^ d
  (if q < 0 then "-" else "") ++ toString ip ++ "." ++ ⟨natDigitsPadded d fp⟩

/-- Number of characters after the last decimal point of a string. -/
def decimalsOf (s : String) : ℕ :=
  (s.data.reverse.takeWhile (fun c => c != '.')).length

/-! ### Safety clamp (lines 49-65) -/

/-- One clamp warning, as data: which quantity was clamped and the
requested (over-limit) value.  `Warning.render` gives the exact string
the firmware appends to its `warnings` buffer. -/
inductive Warning where
  | speed (requested : ℚ)
  | accel (requested : ℚ)
  | decel (requested : ℚ)
deriving DecidableEq

def Warning.render : Warning → String
  | .speed r =>
      "WARNING: Required speed (" ++ fmtQ r 1 ++ " RPM) exceeds maximum (" ++
        fmtQ MAX_SPEED_RPM 1 ++ " RPM). "
  | .accel r =>
      "WARNING: Acceleration (" ++ fmtQ r 1 ++ " RPM/s) exceeds maximum (" ++
        fmtQ MAX_ACCELERATION_RPM_S 1 ++ " RPM/s). "
  | .decel r =>
      "WARNING: Deceleration (" ++ fmtQ r 1 ++ " RPM/s) exceeds maximum (" ++
        fmtQ MAX_ACCELERATION_RPM_S 1 ++ " RPM/s). "

structure ClampResult where
  requiredSpeed : ℚ
  requiredSpeedRpm : ℚ
  accelRpm : ℚ
  decelRpm : ℚ
  warnings : List Warning
deriving DecidableEq

/-- Lines 46-65: the required-speed RPM equivalent is computed from the
step rate, then speed, acceleration and deceleration are each clamped
against the firmware limits, appending a warning per clamped quantity. -/
def safetyClamp (requiredSpeed accelRpm decelRpm : ℚ) : ClampResult :=
  let requiredSpeedRpm := stepsPerSecToRpm requiredSpeed
  let c0 : ClampResult := ⟨requiredSpeed, requiredSpeedRpm, accelRpm, decelRpm, []⟩
  let c1 :=
    if requiredSpeedRpm > MAX_SPEED_RPM then
      { c0 with
        requiredSpeed := rpmToStepsPerSec MAX_SPEED_RPM
        requiredSpeedRpm := MAX_SPEED_RPM
        warnings := c0.warnings ++ [Warning.speed requiredSpeedRpm] }
    else c0
  let c2 :=
    if c1.accelRpm > MAX_ACCELERATION_RPM_S then
      { c1 with
        accelRpm := MAX_ACCELERATION_RPM_S
        warnings := c1.warnings ++ [Warning.accel c1.accelRpm] }
    else c1
  if c2.decelRpm > MAX_ACCELERATION_RPM_S then
    { c2 with
      decelRpm := MAX_ACCELERATION_RPM_S
      warnings := c2.warnings ++ [Warning.decel c2.decelRpm] }
  else c2

/-! ### Motion planner (lines 38, 43, 45-47) -/

/-- Line 38: `int steps = (angle * stepsPerRev * gearRatio) / 360;`.
The float product is exact for the magnitudes involved, and the
assignment to `int` truncates toward zero. -/
def stepsMagnitude (angle : ℤ) : ℤ :=
  truncQ (((angle * stepsPerRev : ℤ) : ℚ) * gearRatio / 360)

/-- Lines 38 and 43: the per-repetition step delta, negated for Reverse. -/
def plannedSignedSteps (angle : ℤ) (reverse : Bool) : ℤ :=
  if reverse then -stepsMagnitude angle else stepsMagnitude angle

/-- Lines 45-47 feeding 49-65: required speed `|steps| / durationSec`
in steps/sec, then the safety clamp. -/
def clampForRequest (steps durationMs : ℤ) (accelRpm decelRpm : ℚ) : ClampResult :=
  safetyClamp (|(steps : ℚ)| / ((durationMs : ℚ) / 1000)) accelRpm decelRpm

/-! ### Sequence executor (lines 75-107) -/

/-- Motor-side state: absolute position in steps and the `millis()` clock. -/
structure Motor where
  pos : ℤ
  time : ℕ
deriving DecidableEq

/-- Lines 90-95: `while (stepper.distanceToGo() != 0) { stepper.run();
if (millis() - start > durationMs * 2) break; }`.  Each environment tick
is one `stepper.run()` call: a position delta and a clock advance.
Returns `none` if the tick list runs out before either exit condition. -/
def motionLoop (durationMs : ℤ) (start : ℕ) (target : ℤ) :
    List (ℤ × ℕ) → Motor → Option Motor
  | [], m => if target - m.pos = 0 then some m else none
  | td :: rest, m =>
    if target - m.pos = 0 then some m
    else
      let m1 : Motor := ⟨m.pos + td.1, m.time + td.2⟩
      if ((m1.time - start : ℕ) : ℤ) > durationMs * 2 then some m1
      else motionLoop durationMs start target rest m1

/-- What one repetition did: position and clock at segment start and at
loop exit (before any inter-repetition delay), and the delay actually
inserted after it. -/
structure RepResult where
  startPos : ℤ
  endPos : ℤ
  startTime : ℕ
  endTime : ℕ
  delayAfter : ℕ
deriving DecidableEq

/-- Lines 79-104: the repetition loop, as a countdown on the repetitions
still to run.  Per repetition: target = current position + steps, run the
motion loop, accumulate `abs(currentPosition() - (targetSteps - steps))`
into the total, and `delay(repDelayMs)` except after the last repetition. -/
def repLoop (steps durationMs repDelayMs : ℤ) :
    ℕ → List (List (ℤ × ℕ)) → Motor → Option (List RepResult × ℤ × Motor)
  | 0, _, m => some ([], 0, m)
  | k + 1, envs, m =>
    let start := m.time
    let target := m.pos + steps
    match motionLoop durationMs start target (envs.headD []) m with
    | none => none
    | some m1 =>
      let dAfter : ℕ := if 0 < k ∧ 0 < repDelayMs then repDelayMs.toNat else 0
      let m2 : Motor := ⟨m1.pos, m1.time + dAfter⟩
      match repLoop steps durationMs repDelayMs k envs.tail m2 with
      | none => none
      | some (rs, tot, mf) =>
        some (⟨m.pos, m1.pos, start, m1.time, dAfter⟩ :: rs, |m1.pos - m.pos| + tot, mf)

/-! ### Report builder (lines 109-135) -/

structure Report where
  warnings : List Warning
  repetitions : ℤ
  angle : ℤ
  directionStr : String
  expectedTotalAngleStr : String
  durationMs : ℤ
  repDelayMs : ℤ
  totalTimeStr : String
  targetSpeedStr : String
  accelStr : String
  decelStr : String
  totalStepsMoved : ℤ
  actualAngleStr : String
deriving DecidableEq

/-- Lines 109-135: the status summary.  Formatting mirrors the source:
`String(expectedTotalAngle, 1)`, `String(actualTotalAngle, 1)`,
`String(requiredSpeedRpm, 2)`, `String(accelRpm, 1)`, `String(decelRpm, 1)`,
and total time in seconds (one decimal) when above 10000 ms. -/
def buildReport (angle repetitions : ℤ) (reverse : Bool) (durationMs repDelayMs : ℤ)
    (c : ClampResult) (totalStepsMoved : ℤ) (totalDuration : ℕ) : Report :=
  let expectedTotalAngle : ℚ := (angle : ℚ) * (repetitions : ℚ)
  let actualTotalAngle : ℚ := (totalStepsMoved : ℚ) * 360 / ((stepsPerRev : ℚ) * gearRatio)
  { warnings := c.warnings
    repetitions := repetitions
    angle := angle
    directionStr := if reverse then "Reverse" else "Forward"
    expectedTotalAngleStr := fmtQ expectedTotalAngle 1
    durationMs := durationMs
    repDelayMs := repDelayMs
    totalTimeStr :=
      if totalDuration > 10000 then fmtQ ((totalDuration : ℚ) / 1000) 1 ++ "s"
      else toString totalDuration ++ "ms"
    targetSpeedStr := fmtQ c.requiredSpeedRpm 2
    accelStr := fmtQ c.accelRpm 1
    decelStr := fmtQ c.decelRpm 1
    totalStepsMoved := totalStepsMoved
    actualAngleStr := fmtQ actualTotalAngle 1 }

/-- Lines 115-135: the `lastStatus` HTML string assembled from the report. -/
def Report.render (r : Report) : String :=
  "<b>Sequence Complete!</b><br><br>"
    ++ (if r.warnings.length > 0 then
          "<b style=\x27color: orange;\x27>WARNING: "
            ++ String.join (r.warnings.map Warning.render) ++ "</b><br><br>"
        else "")
    ++ "<b>Movement:</b><br>"
    ++ "• " ++ toString r.repetitions ++ " repetitions<br>"
    ++ "• " ++ toString r.angle ++ "° per rep (" ++ r.directionStr ++ ")<br>"
    ++ "• Total angle: " ++ r.expectedTotalAngleStr ++ "°<br><br>"
    ++ "<b>Timing:</b><br>"
    ++ "• Movement time per rep: " ++ toString r.durationMs ++ "ms<br>"
    ++ "• Delay between reps: " ++ toString r.repDelayMs ++ "ms<br>"
    ++ "• Total sequence time: " ++ r.totalTimeStr ++ "<br><br>"
    ++ "<b>Motion Profile:</b><br>"
    ++ "• Target speed: " ++ r.targetSpeedStr ++ " RPM<br>"
    ++ "• Acceleration: " ++ r.accelStr ++ " RPM/s<br>"
    ++ "• Deceleration: " ++ r.decelStr ++ " RPM/s<br><br>"
    ++ "<b>Technical:</b><br>"
    ++ "• Steps moved: " ++ toString r.totalStepsMoved ++ "<br>"
    ++ "• Actual angle: " ++ r.actualAngleStr ++ "°"

/-! ### The full engine call `rotateStepper` (lines 37-136) -/

/-- Everything one `rotateStepper` call did: whether the driver-enable
line was asserted (lines 41/107), the per-repetition motion records, the
accumulated `totalStepsMoved`, the final motor state, and the new
`lastStatus` report (`none` when the call was the line-39 no-op early
return, which leaves `lastStatus` untouched). -/
structure RotateOutcome where
  enabledDuring : Bool
  reps : List RepResult
  totalStepsMoved : ℤ
  motor : Motor
  report : Option Report
deriving DecidableEq

def rotateStepper (angle durationMs : ℤ) (reverse : Bool) (repetitions repDelayMs : ℤ)
    (accelRpm decelRpm : ℚ) (env : List (List (ℤ × ℕ))) (m : Motor) :
    Option RotateOutcome :=
  if stepsMagnitude angle = 0 then
    some { enabledDuring := false, reps := [], totalStepsMoved := 0, motor := m, report := none }
  else
    let steps := plannedSignedSteps angle reverse
    let c := clampForRequest steps durationMs accelRpm decelRpm
    match repLoop steps durationMs repDelayMs repetitions.toNat env m with
    | none => none
    | some (rs, tot, mf) =>
      some { enabledDuring := true
             reps := rs
             totalStepsMoved := tot
             motor := mf
             report := some (buildReport angle repetitions reverse durationMs repDelayMs c
               tot (mf.time - m.time)) }

/-! ### HTTP boundary `handleRotate` (lines 390-419) -/

/-- An Arduino `String` request argument, abstracted by the observations
the handler makes of it: `length()`, `toInt()`, `toFloat()`. -/
structure ArgVal where
  len : ℕ
  asInt : ℤ
  asFloat : ℚ
deriving DecidableEq

/-- The request-parameter record: `none` models `server.hasArg(...) == false`. -/
structure HttpReq where
  angle : Option ArgVal
  time : Option ArgVal
  direction : Option String
  repetitions : Option ArgVal
  repDelay : Option ArgVal
  acceleration : Option ArgVal
  deceleration : Option ArgVal
deriving DecidableEq

structure Device where
  motor : Motor
  lastStatus : String
deriving DecidableEq

structure HttpResponse where
  code : ℕ
  body : String
deriving DecidableEq

/-- Lines 398 and 408: repetitions default 1, then `if (repetitions < 1)
repetitions = 1;`. -/
def effRepetitions (req : HttpReq) : ℤ :=
  let r0 : ℤ := match req.repetitions with | some v => v.asInt | none => 1
  if r0 < 1 then 1 else r0

/-- Lines 399 and 409: repDelay default 0, then `if (repDelay < 0)
repDelay = 0;`. -/
def effRepDelay (req : HttpReq) : ℤ :=
  let r0 : ℤ := match req.repDelay with | some v => v.asInt | none => 0
  if r0 < 0 then 0 else r0

/-- Lines 402-403 and 410: acceleration defaults when absent or empty,
then `if (accelRpm <= 0) accelRpm = DEFAULT_ACCELERATION_RPM_S;`. -/
def effAccel (req : HttpReq) : ℚ :=
  let a0 : ℚ :=
    match req.acceleration with
    | some v => if 0 < v.len then v.asFloat else DEFAULT_ACCELERATION_RPM_S
    | none => DEFAULT_ACCELERATION_RPM_S
  if a0 ≤ 0 then DEFAULT_ACCELERATION_RPM_S else a0

/-- Lines 404-405 and 411: deceleration, symmetric to acceleration. -/
def effDecel (req : HttpReq) : ℚ :=
  let d0 : ℚ :=
    match req.deceleration with
    | some v => if 0 < v.len then v.asFloat else DEFAULT_DECELERATION_RPM_S
    | none => DEFAULT_DECELERATION_RPM_S
  if d0 ≤ 0 then DEFAULT_DECELERATION_RPM_S else d0

/-- Lines 390-419.  With `angle`, `time` and `direction` all present:
coerce the optional parameters, reset the motor position to 0, run
`rotateStepper`, and answer 200 with the (possibly stale) `lastStatus`.
Otherwise answer 400 "Missing parameters." touching nothing.  The third
component reports the engine outcome (`none`: the engine was never
invoked, so the driver-enable line was never asserted). -/
def handleRotate (req : HttpReq) (env : List (List (ℤ × ℕ))) (dev : Device) :
    Option (Device × HttpResponse × Option RotateOutcome) :=
  match req.angle, req.time, req.direction with
  | some a, some t, some dirArg =>
    let reverse := dirArg == "reverse"
    match rotateStepper a.asInt t.asInt reverse (effRepetitions req) (effRepDelay req)
        (effAccel req) (effDecel req) env ⟨0, dev.motor.time⟩ with
    | none => none
    | some out =>
      let newStatus := match out.report with | some r => r.render | none => dev.lastStatus
      some (⟨out.motor, newStatus⟩, ⟨200, newStatus⟩, some out)
  | _, _, _ => some (dev, ⟨400, "Missing parameters."⟩, none)

/-! ### Concrete instances used by witnesses and counterexamples -/

def devA : Device := ⟨⟨0, 0⟩, ""⟩

def reqMissingAngle : HttpReq :=
  ⟨none, some ⟨4, 2000, 2000⟩, some "forward", none, none, none, none⟩

def reqZeroAngle : HttpReq :=
  ⟨some ⟨1, 0, 0⟩, some ⟨4, 1000, 1000⟩, some "forward", none, none, none, none⟩

def reqCoerced : HttpReq :=
  ⟨some ⟨2, 45, 45⟩, some ⟨4, 2000, 2000⟩, some "forward",
    some ⟨1, 0, 0⟩, some ⟨2, -5, -5⟩, some ⟨0, 0, 0⟩, some ⟨2, -1, -1⟩⟩

/-- The report of the two-repetition run `rotateRunA` below: angle 1°,
10 ms per repetition, both segments cut off by the runaway bound. -/
def reportA : Report :=
  ⟨[], 2, 1, "Forward", "2.0", 10, 0, "42ms", "16.41", "10.0", "10.0", 2, "0.1"⟩

def outA : RotateOutcome :=
  ⟨true, [⟨0, 1, 0, 21, 0⟩, ⟨1, 2, 21, 42, 0⟩], 2, ⟨2, 42⟩, some reportA⟩

/-- The report of the three-repetition run `rotateRunB` below: delay
500 ms between repetitions, each segment cut off by the runaway bound. -/
def reportB : Report :=
  ⟨[], 3, 1, "Forward", "3.0", 10, 500, "1063ms", "16.41", "10.0", "10.0", 3, "0.1"⟩

def outB : RotateOutcome :=
  ⟨true, [⟨0, 1, 0, 21, 500⟩, ⟨1, 2, 521, 542, 500⟩, ⟨2, 3, 1042, 1063, 0⟩], 3,
    ⟨3, 1063⟩, some reportB⟩

/-! ### Executor lemmas -/

/-- The motion loop only stops with the target reached or the runaway
cutoff fired (when it completes within the supplied ticks at all). -/
theorem motionLoop_sound (durationMs : ℤ) (start : ℕ) (target : ℤ) :
    ∀ (ticks : List (ℤ × ℕ)) (m m1 : Motor),
      motionLoop durationMs start target ticks m = some m1 →
      m1.pos = target ∨ ((m1.time - start : ℕ) : ℤ) > durationMs * 2 := by
  intro ticks
  induction ticks with
  | nil =>
    intro m m1 h
    rw [motionLoop] at h
    split at h
    · next hc => cases h; left; omega
    · cases h
  | cons td rest ih =>
    intro m m1 h
    rw [motionLoop] at h
    split at h
    · next hc => cases h; left; omega
    · simp only at h
      split at h
      · next hc => cases h; right; exact hc
      · exact ih _ _ h

/-- The repetition loop always runs the full countdown: an aborted
segment is local and the sequence proceeds to the next repetition. -/
theorem repLoop_length (steps durationMs repDelayMs : ℤ) :
    ∀ (k : ℕ) (envs : List (List (ℤ × ℕ))) (m : Motor) (rs : List RepResult)
      (tot : ℤ) (mf : Motor),
      repLoop steps durationMs repDelayMs k envs m = some (rs, tot, mf) →
      rs.length = k := by
  intro k
  induction k with
  | zero =>
    intro envs m rs tot mf h
    rw [repLoop] at h
    cases h
    rfl
  | succ k ih =>
    intro envs m rs tot mf h
    rw [repLoop] at h
    cases hm : motionLoop durationMs m.time (m.pos + steps) (envs.headD []) m with
    | none => rw [hm] at h; cases h
    | some m1 =>
      rw [hm] at h
      simp only at h
      cases hr : repLoop steps durationMs repDelayMs k envs.tail
          ⟨m1.pos, m1.time + if 0 < k ∧ 0 < repDelayMs then repDelayMs.toNat else 0⟩ with
      | none => rw [hr] at h; cases h
      | some x =>
        obtain ⟨rs', tot', mf'⟩ := x
        rw [hr] at h
        cases h
        simp [ih _ _ _ _ _ hr]

/-- Every recorded repetition ends with the target reached or the
runaway cutoff fired, and its recorded times bracket the segment. -/
theorem repLoop_exit (steps durationMs repDelayMs : ℤ) :
    ∀ (k : ℕ) (envs : List (List (ℤ × ℕ))) (m : Motor) (rs : List RepResult)
      (tot : ℤ) (mf : Motor),
      repLoop steps durationMs repDelayMs k envs m = some (rs, tot, mf) →
      ∀ r ∈ rs, r.endPos = r.startPos + steps ∨
        ((r.endTime - r.startTime : ℕ) : ℤ) > durationMs * 2 := by
  intro k
  induction k with
  | zero =>
    intro envs m rs tot mf h
    rw [repLoop] at h
    cases h
    intro r hr
    cases hr
  | succ k ih =>
    intro envs m rs tot mf h
    rw [repLoop] at h
    cases hm : motionLoop durationMs m.time (m.pos + steps) (envs.headD []) m with
    | none => rw [hm] at h; cases h
    | some m1 =>
      rw [hm] at h
      simp only at h
      cases hr : repLoop steps durationMs repDelayMs k envs.tail
          ⟨m1.pos, m1.time + if 0 < k ∧ 0 < repDelayMs then repDelayMs.toNat else 0⟩ with
      | none => rw [hr] at h; cases h
      | some x =>
        obtain ⟨rs', tot', mf'⟩ := x
        rw [hr] at h
        cases h
        intro r hmem
        rcases List.mem_cons.mp hmem with hhead | htail
        · subst hhead
          rcases motionLoop_sound durationMs m.time (m.pos + steps) _ _ _ hm with hp | ht
        -- head repetition: startPos = m.pos, endPos = m1.pos, times m.time / m1.time
          · left; simpa using hp
          · right; simpa using ht
        · exact ih _ _ _ _ _ hr r htail

/-- The `totalStepsMoved` accumulator equals the sum over repetitions of
the distance actually traveled (|end − start| of each segment). -/
theorem repLoop_total (steps durationMs repDelayMs : ℤ) :
    ∀ (k : ℕ) (envs : List (List (ℤ × ℕ))) (m : Motor) (rs : List RepResult)
      (tot : ℤ) (mf : Motor),
      repLoop steps durationMs repDelayMs k envs m = some (rs, tot, mf) →
      tot = (rs.map (fun r => |r.endPos - r.startPos|)).sum := by
  intro k
  induction k with
  | zero =>
    intro envs m rs tot mf h
    rw [repLoop] at h
    cases h
    rfl
  | succ k ih =>
    intro envs m rs tot mf h
    rw [repLoop] at h
    cases hm : motionLoop durationMs m.time (m.pos + steps) (envs.headD []) m with
    | none => rw [hm] at h; cases h
    | some m1 =>
      rw [hm] at h
      simp only at h
      cases hr : repLoop steps durationMs repDelayMs k envs.tail
          ⟨m1.pos, m1.time + if 0 < k ∧ 0 < repDelayMs then repDelayMs.toNat else 0⟩ with
      | none => rw [hr] at h; cases h
      | some x =>
        obtain ⟨rs', tot', mf'⟩ := x
        rw [hr] at h
        cases h
        simp [ih _ _ _ _ _ hr]

/-- The inter-repetition delay is inserted exactly after the
non-final repetitions, and only when positive. -/
theorem repLoop_delays (steps durationMs repDelayMs : ℤ) :
    ∀ (k : ℕ) (envs : List (List (ℤ × ℕ))) (m : Motor) (rs : List RepResult)
      (tot : ℤ) (mf : Motor),
      repLoop steps durationMs repDelayMs k envs m = some (rs, tot, mf) →
      ∀ (i : ℕ) (hi : i < rs.length),
        (rs.get ⟨i, hi⟩).delayAfter =
          if i + 1 < k ∧ 0 < repDelayMs then repDelayMs.toNat else 0 := by
  intro k
  induction k with
  | zero =>
    intro envs m rs tot mf h
    rw [repLoop] at h
    cases h
    intro i hi
    cases hi
  | succ k ih =>
    intro envs m rs tot mf h
    rw [repLoop] at h
    cases hm : motionLoop durationMs m.time (m.pos + steps) (envs.headD []) m with
    | none => rw [hm] at h; cases h
    | some m1 =>
      rw [hm] at h
      simp only at h
      cases hr : repLoop steps durationMs repDelayMs k envs.tail
          ⟨m1.pos, m1.time + if 0 < k ∧ 0 < repDelayMs then repDelayMs.toNat else 0⟩ with
      | none => rw [hr] at h; cases h
      | some x =>
        obtain ⟨rs', tot', mf'⟩ := x
        rw [hr] at h
        cases h
        intro i hi
        match i with
        | 0 =>
          have : (0 + 1 < k + 1 ∧ 0 < repDelayMs) ↔ (0 < k ∧ 0 < repDelayMs) := by omega
          simp only [List.get]
          rw [if_congr this rfl rfl]
        | Nat.succ j =>
          have hj : j < rs'.length := by
            simpa using hi
          have := ih _ _ _ _ _ hr j hj
          simp only [List.get] at this ⊢
          rw [this]
          have hcong : (j + 1 < k ∧ 0 < repDelayMs) ↔ (j + 1 + 1 < k + 1 ∧ 0 < repDelayMs) := by
            omega
          rw [if_congr hcong rfl rfl]

/-! ### Small computation helpers -/

theorem stepsMagnitude_zero : stepsMagnitude 0 = 0 := by
  rw [stepsMagnitude, truncQ, if_pos (by norm_num)]
  norm_num

theorem stepsMagnitude_one : stepsMagnitude 1 = 35 := by
  rw [stepsMagnitude, truncQ, if_pos]
  · rw [show ((((1 : ℤ) * stepsPerRev : ℤ) : ℚ) * gearRatio / 360) = 320 / 9 by
      norm_num [stepsPerRev, microsteps, gearRatio]]
    norm_num [Int.floor_eq_iff]
  · norm_num [stepsPerRev, microsteps, gearRatio]

/-! ### C1 -/

/-- C1: a request with angle = 0 short-circuits as a no-op — the engine
returns before any motor activity: the enable line is never asserted
(`enabledDuring = false`), no repetition is executed, the total-steps
count is 0, the motor state is untouched, and no report is produced. -/
theorem claim_C1_zero_angle_noop (durationMs : ℤ) (reverse : Bool)
    (repetitions repDelayMs : ℤ) (accelRpm decelRpm : ℚ)
    (env : List (List (ℤ × ℕ))) (m : Motor) :
    rotateStepper 0 durationMs reverse repetitions repDelayMs accelRpm decelRpm env m =
      some { enabledDuring := false, reps := [], totalStepsMoved := 0,
             motor := m, report := none } := by
  rw [rotateStepper, if_pos stepsMagnitude_zero]

/-! ### C2 -/

/-- C2 counterexample: at angle = 1° (Forward) the firmware plans
⌊1 × 3200 × 4 / 360⌋ = 35 steps (the C float-to-int cast truncates),
while round(1 × 3200 × 4 / 360) = round(35.55…) = 36. -/
theorem claim_C2_counterexample :
    plannedSignedSteps 1 false = 35 ∧
    round (((1 * stepsPerRev : ℤ) : ℚ) * gearRatio / 360) = 36 ∧
    (plannedSignedSteps 1 false : ℤ) ≠ round (((1 * stepsPerRev : ℤ) : ℚ) * gearRatio / 360) := by
  have h1 : plannedSignedSteps 1 false = 35 := by
    rw [plannedSignedSteps, if_neg (by simp)]
    exact stepsMagnitude_one
  have h2 : round (((1 * stepsPerRev : ℤ) : ℚ) * gearRatio / 360) = 36 := by
    rw [show ((((1 : ℤ) * stepsPerRev : ℤ) : ℚ) * gearRatio / 360) = 320 / 9 by
      norm_num [stepsPerRev, microsteps, gearRatio]]
    rw [round_eq]
    norm_num [Int.floor_eq_iff]
  exact ⟨h1, h2, by rw [h1, h2]; decide⟩

/-- C2 (amended): the signed per-repetition step count is the exact value
angle × stepsPerRevolution × gearRatio / 360 truncated toward zero (not
rounded to nearest), and it is negated exactly when direction is Reverse. -/
theorem claim_C2_amended (angle : ℤ) (h : 0 ≤ angle) :
    plannedSignedSteps angle true = -plannedSignedSteps angle false ∧
    ((plannedSignedSteps angle false : ℚ) ≤ ((angle * stepsPerRev : ℤ) : ℚ) * gearRatio / 360 ∧
      ((angle * stepsPerRev : ℤ) : ℚ) * gearRatio / 360 < (plannedSignedSteps angle false : ℚ) + 1) := by
  have hq : (0 : ℚ) ≤ ((angle * stepsPerRev : ℤ) : ℚ) * gearRatio / 360 := by
    have : (0 : ℚ) ≤ ((angle * stepsPerRev : ℤ) : ℚ) := by
      have : (0 : ℤ) ≤ angle * stepsPerRev := by
        have : (0 : ℤ) ≤ stepsPerRev := by norm_num [stepsPerRev, microsteps]
        exact mul_nonneg h this
      exact_mod_cast this
    rw [gearRatio]
    positivity
  constructor
  · simp [plannedSignedSteps]
  · rw [plannedSignedSteps, if_neg (by simp), stepsMagnitude, truncQ, if_pos hq]
    exact ⟨Int.floor_le _, Int.lt_floor_add_one _⟩

/-- Witness for the C2 amended theorem at angle = 1. -/
theorem claim_C2_amended_witness :
    (0 : ℤ) ≤ 1 ∧
    (plannedSignedSteps 1 true = -plannedSignedSteps 1 false ∧
      ((plannedSignedSteps 1 false : ℚ) ≤ (((1 : ℤ) * stepsPerRev : ℤ) : ℚ) * gearRatio / 360 ∧
        (((1 : ℤ) * stepsPerRev : ℤ) : ℚ) * gearRatio / 360 < (plannedSignedSteps 1 false : ℚ) + 1)) :=
  ⟨by decide, claim_C2_amended 1 (by decide)⟩

/-! ### C6 -/

theorem roundtrip_rpm (rpm : ℚ) : stepsPerSecToRpm (rpmToStepsPerSec rpm) = rpm := by
  rw [rpmToStepsPerSec, stepsPerSecToRpm]
  norm_num [stepsPerRev, microsteps, gearRatio]
  ring

/-- C6: the unit conversion round-trips — for every rpm > 0 (in fact for
every rpm), converting RPM to steps/sec and back recovers rpm exactly
over exact rational arithmetic. -/
theorem claim_C6_roundtrip (rpm : ℚ) (h : 0 < rpm) :
    stepsPerSecToRpm (rpmToStepsPerSec rpm) = rpm :=
  roundtrip_rpm rpm

/-- Witness for C6 at rpm = 7. -/
theorem claim_C6_roundtrip_witness :
    (0 : ℚ) < 7 ∧ stepsPerSecToRpm (rpmToStepsPerSec 7) = 7 :=
  ⟨by norm_num, claim_C6_roundtrip 7 (by norm_num)⟩

/-! ### C4 -/

/-- C4: for each clamped quantity — required speed, acceleration,
deceleration — if its RPM-equivalent exceeds the configured maximum the
output equals the maximum exactly and a warning carrying the quantity and
the requested value is emitted (its rendering also names the limit);
otherwise the value passes through unchanged with no warning for that
quantity; and when none triggers, the warning list is empty. -/
theorem claim_C4_clamp (s a d : ℚ) :
    ((stepsPerSecToRpm s > MAX_SPEED_RPM →
        (safetyClamp s a d).requiredSpeedRpm = MAX_SPEED_RPM ∧
        (safetyClamp s a d).requiredSpeed = rpmToStepsPerSec MAX_SPEED_RPM ∧
        Warning.speed (stepsPerSecToRpm s) ∈ (safetyClamp s a d).warnings) ∧
      (¬stepsPerSecToRpm s > MAX_SPEED_RPM →
        (safetyClamp s a d).requiredSpeedRpm = stepsPerSecToRpm s ∧
        (safetyClamp s a d).requiredSpeed = s ∧
        ∀ x : ℚ, Warning.speed x ∉ (safetyClamp s a d).warnings)) ∧
    ((a > MAX_ACCELERATION_RPM_S →
        (safetyClamp s a d).accelRpm = MAX_ACCELERATION_RPM_S ∧
        Warning.accel a ∈ (safetyClamp s a d).warnings) ∧
      (¬a > MAX_ACCELERATION_RPM_S →
        (safetyClamp s a d).accelRpm = a ∧
        ∀ x : ℚ, Warning.accel x ∉ (safetyClamp s a d).warnings)) ∧
    ((d > MAX_ACCELERATION_RPM_S →
        (safetyClamp s a d).decelRpm = MAX_ACCELERATION_RPM_S ∧
        Warning.decel d ∈ (safetyClamp s a d).warnings) ∧
      (¬d > MAX_ACCELERATION_RPM_S →
        (safetyClamp s a d).decelRpm = d ∧
        ∀ x : ℚ, Warning.decel x ∉ (safetyClamp s a d).warnings)) ∧
    (¬stepsPerSecToRpm s > MAX_SPEED_RPM → ¬a > MAX_ACCELERATION_RPM_S →
      ¬d > MAX_ACCELERATION_RPM_S → (safetyClamp s a d).warnings = []) := by
  by_cases h1 : stepsPerSecToRpm s > MAX_SPEED_RPM <;>
    by_cases h2 : a > MAX_ACCELERATION_RPM_S <;>
      by_cases h3 : d > MAX_ACCELERATION_RPM_S <;>
        simp [safetyClamp, h1, h2, h3]

/-- Witness for C4: a requested speed of 100 RPM (in step-rate form) with
acceleration 40 RPM/s and deceleration 5 RPM/s clamps speed and
acceleration to the maxima with warnings, and lets deceleration through. -/
theorem claim_C4_clamp_witness :
    stepsPerSecToRpm (rpmToStepsPerSec 100) > MAX_SPEED_RPM ∧
    ((safetyClamp (rpmToStepsPerSec 100) 40 5).requiredSpeedRpm = MAX_SPEED_RPM ∧
      (safetyClamp (rpmToStepsPerSec 100) 40 5).requiredSpeed = rpmToStepsPerSec MAX_SPEED_RPM ∧
      Warning.speed (stepsPerSecToRpm (rpmToStepsPerSec 100)) ∈
        (safetyClamp (rpmToStepsPerSec 100) 40 5).warnings) ∧
    ((safetyClamp (rpmToStepsPerSec 100) 40 5).accelRpm = MAX_ACCELERATION_RPM_S ∧
      Warning.accel 40 ∈ (safetyClamp (rpmToStepsPerSec 100) 40 5).warnings) ∧
    ((safetyClamp (rpmToStepsPerSec 100) 40 5).decelRpm = 5 ∧
      ∀ x : ℚ, Warning.decel x ∉ (safetyClamp (rpmToStepsPerSec 100) 40 5).warnings) := by
  have hgt : stepsPerSecToRpm (rpmToStepsPerSec 100) > MAX_SPEED_RPM := by
    rw [roundtrip_rpm]
    norm_num [MAX_SPEED_RPM]
  have h := claim_C4_clamp (rpmToStepsPerSec 100) 40 5
  refine ⟨hgt, h.1.1 hgt, h.2.1.1 (by norm_num [MAX_ACCELERATION_RPM_S]),
    (h.2.2.1.2 (by norm_num [MAX_ACCELERATION_RPM_S])).1,
    (h.2.2.1.2 (by norm_num [MAX_ACCELERATION_RPM_S])).2⟩

/-! ### C5 -/

/-- C5: the safety clamp is idempotent — re-clamping the already clamped
speed/acceleration/deceleration triple leaves every value unchanged and
emits no warnings at all. -/
theorem claim_C5_clamp_idempotent (s a d : ℚ) :
    safetyClamp (safetyClamp s a d).requiredSpeed (safetyClamp s a d).accelRpm
        (safetyClamp s a d).decelRpm =
      { safetyClamp s a d with warnings := [] } := by
  have hmax : stepsPerSecToRpm (rpmToStepsPerSec MAX_SPEED_RPM) = MAX_SPEED_RPM :=
    roundtrip_rpm MAX_SPEED_RPM
  by_cases h1 : stepsPerSecToRpm s > MAX_SPEED_RPM <;>
    by_cases h2 : a > MAX_ACCELERATION_RPM_S <;>
      by_cases h3 : d > MAX_ACCELERATION_RPM_S <;>
        simp [safetyClamp, h1, h2, h3, hmax]

/-! ### C8 -/

/-- C8: if `angle`, `time` or `direction` is absent, the handler answers
400 "Missing parameters." and executes no motion: the device state
(motor position and `lastStatus`) is returned unchanged and the engine is
never invoked (outcome `none`), so the motor is never enabled. -/
theorem claim_C8_missing_params (req : HttpReq) (env : List (List (ℤ × ℕ)))
    (dev : Device)
    (h : req.angle = none ∨ req.time = none ∨ req.direction = none) :
    handleRotate req env dev = some (dev, ⟨400, "Missing parameters."⟩, none) := by
  obtain ⟨oa, ot, od, orep, odel, oacc, odec⟩ := req
  simp only at h
  cases oa <;> cases ot <;> cases od <;> simp_all [handleRotate]

/-- Witness for C8: a request carrying `time` and `direction` but no
`angle` gets the 400 response and leaves the device untouched. -/
theorem claim_C8_missing_params_witness :
    (reqMissingAngle.angle = none ∨ reqMissingAngle.time = none ∨
      reqMissingAngle.direction = none) ∧
    handleRotate reqMissingAngle [] devA =
      some (devA, ⟨400, "Missing parameters."⟩, none) :=
  ⟨Or.inl rfl, claim_C8_missing_params reqMissingAngle [] devA (Or.inl rfl)⟩

/-! ### C10 -/

/-- C10 counterexample: a request with all three required parameters
present but angle = 0 is answered 200, yet no motion is executed — the
engine returns the no-op outcome with the enable line never asserted and
zero repetitions run, refuting "every request with the three required
parameters present executes motion". -/
theorem claim_C10_counterexample :
    reqZeroAngle.angle.isSome = true ∧ reqZeroAngle.time.isSome = true ∧
    reqZeroAngle.direction.isSome = true ∧
    handleRotate reqZeroAngle [] devA =
      some (devA, ⟨200, ""⟩,
        some { enabledDuring := false, reps := [], totalStepsMoved := 0,
               motor := ⟨0, 0⟩, report := none }) := by
  refine ⟨rfl, rfl, rfl, ?_⟩
  simp only [handleRotate, reqZeroAngle, devA]
  rw [rotateStepper, if_pos stepsMagnitude_zero]

/-- C10 (amended): the boundary coercions hold as claimed — repetitions
< 1 becomes 1, repDelay < 0 becomes 0, acceleration/deceleration absent,
empty or ≤ 0 become the configured defaults — and every request with the
three required parameters present is dispatched to the engine and, when
the engine call completes, answered with HTTP 200; but motion is executed
only when the planned step count is nonzero (angle = 0 yields a no-op). -/
theorem claim_C10_amended (req : HttpReq) (env : List (List (ℤ × ℕ)))
    (dev : Device) (a t : ArgVal) (dirArg : String)
    (ha : req.angle = some a) (ht : req.time = some t)
    (hd : req.direction = some dirArg) :
    (1 ≤ effRepetitions req ∧
      (∀ v, req.repetitions = some v → v.asInt < 1 → effRepetitions req = 1) ∧
      (∀ v, req.repetitions = some v → 1 ≤ v.asInt → effRepetitions req = v.asInt)) ∧
    (0 ≤ effRepDelay req ∧
      (∀ v, req.repDelay = some v → v.asInt < 0 → effRepDelay req = 0) ∧
      (∀ v, req.repDelay = some v → 0 ≤ v.asInt → effRepDelay req = v.asInt)) ∧
    ((req.acceleration = none → effAccel req = DEFAULT_ACCELERATION_RPM_S) ∧
      (∀ v, req.acceleration = some v → v.len = 0 ∨ v.asFloat ≤ 0 →
        effAccel req = DEFAULT_ACCELERATION_RPM_S) ∧
      (∀ v, req.acceleration = some v → 0 < v.len → 0 < v.asFloat →
        effAccel req = v.asFloat)) ∧
    ((req.deceleration = none → effDecel req = DEFAULT_DECELERATION_RPM_S) ∧
      (∀ v, req.deceleration = some v → v.len = 0 ∨ v.asFloat ≤ 0 →
        effDecel req = DEFAULT_DECELERATION_RPM_S) ∧
      (∀ v, req.deceleration = some v → 0 < v.len → 0 < v.asFloat →
        effDecel req = v.asFloat)) ∧
    (∀ dev2 resp out, handleRotate req env dev = some (dev2, resp, out) →
      resp.code = 200) := by
  refine ⟨⟨?_, ?_, ?_⟩, ⟨?_, ?_, ?_⟩, ⟨?_, ?_, ?_⟩, ⟨?_, ?_, ?_⟩, ?_⟩
  · rw [effRepetitions]
    split <;> omega
  · intro v hv hlt
    rw [effRepetitions, hv]
    simp only
    rw [if_pos hlt]
  · intro v hv hge
    rw [effRepetitions, hv]
    simp only
    rw [if_neg (by omega)]
  · rw [effRepDelay]
    split <;> omega
  · intro v hv hlt
    rw [effRepDelay, hv]
    simp only
    rw [if_pos hlt]
  · intro v hv hge
    rw [effRepDelay, hv]
    simp only
    rw [if_neg (by omega)]
  · intro hnone
    rw [effAccel, hnone]
    simp [DEFAULT_ACCELERATION_RPM_S]
  · intro v hv hbad
    rw [effAccel, hv]
    simp only
    rcases hbad with hlen | hneg
    · norm_num [hlen, DEFAULT_ACCELERATION_RPM_S]
    · by_cases hl : 0 < v.len
      · rw [if_pos hl, if_pos hneg]
      · rw [if_neg hl]
        simp [DEFAULT_ACCELERATION_RPM_S]
  · intro v hv hlen hpos
    rw [effAccel, hv]
    simp only
    rw [if_pos hlen, if_neg (by linarith)]
  · intro hnone
    rw [effDecel, hnone]
    simp [DEFAULT_DECELERATION_RPM_S]
  · intro v hv hbad
    rw [effDecel, hv]
    simp only
    rcases hbad with hlen | hneg
    · norm_num [hlen, DEFAULT_DECELERATION_RPM_S]
    · by_cases hl : 0 < v.len
      · rw [if_pos hl, if_pos hneg]
      · rw [if_neg hl]
        simp [DEFAULT_DECELERATION_RPM_S]
  · intro v hv hlen hpos
    rw [effDecel, hv]
    simp only
    rw [if_pos hlen, if_neg (by linarith)]
  · intro dev2 resp out h
    rw [handleRotate, ha, ht, hd] at h
    simp only at h
    cases hrot : rotateStepper a.asInt t.asInt (dirArg == "reverse")
        (effRepetitions req) (effRepDelay req) (effAccel req) (effDecel req)
        env ⟨0, dev.motor.time⟩ with
    | none => rw [hrot] at h; cases h
    | some o =>
      rw [hrot] at h
      simp only [Option.some.injEq] at h
      rw [show resp = (dev2, resp, out).2.1 from rfl, ← h]

/-- Witness for the amended C10 at a request whose optional parameters
are all out of range: repetitions 0, repDelay −5, empty acceleration,
negative deceleration. -/
theorem claim_C10_amended_witness :
    reqCoerced.angle = some ⟨2, 45, 45⟩ ∧
    effRepetitions reqCoerced = 1 ∧ effRepDelay reqCoerced = 0 ∧
    effAccel reqCoerced = DEFAULT_ACCELERATION_RPM_S ∧
    effDecel reqCoerced = DEFAULT_DECELERATION_RPM_S := by
  have h := claim_C10_amended reqCoerced [] devA ⟨2, 45, 45⟩ ⟨4, 2000, 2000⟩
    "forward" rfl rfl rfl
  refine ⟨rfl, h.1.2.1 ⟨1, 0, 0⟩ rfl (by norm_num),
    h.2.1.2.1 ⟨2, -5, -5⟩ rfl (by norm_num),
    h.2.2.1.2.1 ⟨0, 0, 0⟩ rfl (Or.inl rfl),
    h.2.2.2.1.2.1 ⟨2, -1, -1⟩ rfl (Or.inr (by norm_num))⟩

/-! ### C3 -/

/-- C3: for every completed engine call, each repetition's motion loop
ran until the remaining distance reached zero or the elapsed time for the
repetition exceeded twice the requested per-repetition duration; the
accumulated total-steps counter equals the sum over repetitions of the
distance actually traveled (|end − start|, not the planned target); and
an abort is local — the full number of repetitions is always executed. -/
theorem claim_C3_runaway_cutoff (angle durationMs : ℤ) (reverse : Bool)
    (repetitions repDelayMs : ℤ) (accelRpm decelRpm : ℚ)
    (env : List (List (ℤ × ℕ))) (m : Motor) (out : RotateOutcome)
    (h0 : stepsMagnitude angle ≠ 0)
    (h : rotateStepper angle durationMs reverse repetitions repDelayMs accelRpm
      decelRpm env m = some out) :
    (∀ r ∈ out.reps,
        r.endPos = r.startPos + plannedSignedSteps angle reverse ∨
        ((r.endTime - r.startTime : ℕ) : ℤ) > durationMs * 2) ∧
    out.totalStepsMoved = (out.reps.map (fun r => |r.endPos - r.startPos|)).sum ∧
    out.reps.length = repetitions.toNat := by
  rw [rotateStepper, if_neg h0] at h
  simp only at h
  cases hrep : repLoop (plannedSignedSteps angle reverse) durationMs repDelayMs
      repetitions.toNat env m with
  | none => rw [hrep] at h; cases h
  | some x =>
    obtain ⟨rs, tot, mf⟩ := x
    rw [hrep] at h
    simp only [Option.some.injEq] at h
    subst h
    exact ⟨repLoop_exit _ _ _ _ _ _ _ _ _ hrep,
      repLoop_total _ _ _ _ _ _ _ _ _ hrep,
      repLoop_length _ _ _ _ _ _ _ _ _ hrep⟩

/-! ### C7 -/

/-- C7: for every completed engine call, the executor suspends for the
requested delay after exactly the non-final repetitions and only when the
delay is positive: the i-th repetition (0-based) is followed by the delay
iff i + 1 < N and delay > 0; in particular no suspension ever follows the
last repetition, and a delay of 0 (or N = 1) yields no suspension at all. -/
theorem claim_C7_rep_delays (angle durationMs : ℤ) (reverse : Bool)
    (repetitions repDelayMs : ℤ) (accelRpm decelRpm : ℚ)
    (env : List (List (ℤ × ℕ))) (m : Motor) (out : RotateOutcome)
    (h0 : stepsMagnitude angle ≠ 0)
    (h : rotateStepper angle durationMs reverse repetitions repDelayMs accelRpm
      decelRpm env m = some out) :
    ∀ (i : ℕ) (hi : i < out.reps.length),
      (out.reps.get ⟨i, hi⟩).delayAfter =
        if i + 1 < repetitions.toNat ∧ 0 < repDelayMs then repDelayMs.toNat
        else 0 := by
  rw [rotateStepper, if_neg h0] at h
  simp only at h
  cases hrep : repLoop (plannedSignedSteps angle reverse) durationMs repDelayMs
      repetitions.toNat env m with
  | none => rw [hrep] at h; cases h
  | some x =>
    obtain ⟨rs, tot, mf⟩ := x
    rw [hrep] at h
    simp only [Option.some.injEq] at h
    subst h
    exact repLoop_delays _ _ _ _ _ _ _ _ _ hrep

/-! ### Evaluation of the concrete runs behind the C3/C7/C9 witnesses -/

theorem plannedSteps_one : plannedSignedSteps 1 false = 35 := by
  rw [plannedSignedSteps, if_neg (by simp)]
  exact stepsMagnitude_one

theorem stepsMagnitude_one_ne : stepsMagnitude 1 ≠ 0 := by
  rw [stepsMagnitude_one]
  decide

theorem clampA_eval : clampForRequest 35 10 10 10 = ⟨3500, 525 / 32, 10, 10, []⟩ := by
  rw [clampForRequest]
  rw [show (|((35 : ℤ) : ℚ)| / (((10 : ℤ) : ℚ) / 1000)) = 3500 by norm_num]
  rw [safetyClamp]
  norm_num [ClampResult.mk.injEq, stepsPerSecToRpm, stepsPerRev, microsteps,
    gearRatio, MAX_SPEED_RPM, MAX_ACCELERATION_RPM_S]

/-- Evaluation principle for `fmtQ` at a nonnegative argument whose
scaled-and-rounded value is `n`. -/
theorem fmtQ_eval (q : ℚ) (d n : ℕ) (h0 : 0 ≤ q)
    (h : ⌊q * 10 ^ d + 1 / 2⌋ = (n : ℤ)) :
    fmtQ q d = toString (n / 10 ^ d) ++ "." ++ ⟨natDigitsPadded d (n % 10 ^ d)⟩ := by
  rw [fmtQ]
  rw [abs_of_nonneg h0, h, if_neg (not_lt.mpr h0)]
  rfl

theorem fmtQ_two_one : fmtQ 2 1 = "2.0" := by
  rw [fmtQ_eval 2 1 20 (by norm_num) (by norm_num [Int.floor_eq_iff])]
  decide

theorem fmtQ_three_one : fmtQ 3 1 = "3.0" := by
  rw [fmtQ_eval 3 1 30 (by norm_num) (by norm_num [Int.floor_eq_iff])]
  decide

theorem fmtQ_ten_one : fmtQ 10 1 = "10.0" := by
  rw [fmtQ_eval 10 1 100 (by norm_num) (by norm_num [Int.floor_eq_iff])]
  decide

theorem fmtQ_speedA : fmtQ (525 / 32) 2 = "16.41" := by
  rw [fmtQ_eval (525 / 32) 2 1641 (by norm_num) (by norm_num [Int.floor_eq_iff])]
  decide

theorem fmtQ_actualA : fmtQ (9 / 160) 1 = "0.1" := by
  rw [fmtQ_eval (9 / 160) 1 1 (by norm_num) (by norm_num [Int.floor_eq_iff])]
  decide

theorem fmtQ_actualB : fmtQ (27 / 320) 1 = "0.1" := by
  rw [fmtQ_eval (27 / 320) 1 1 (by norm_num) (by norm_num [Int.floor_eq_iff])]
  decide

theorem reportA_eval :
    buildReport 1 2 false 10 0 ⟨3500, 525 / 32, 10, 10, []⟩ 2 42 = reportA := by
  rw [buildReport, reportA]
  rw [show (((1 : ℤ) : ℚ) * ((2 : ℤ) : ℚ)) = 2 by norm_num]
  rw [show (((2 : ℤ) : ℚ) * 360 / ((stepsPerRev : ℚ) * gearRatio)) = 9 / 160 by
    norm_num [stepsPerRev, microsteps, gearRatio]]
  rw [fmtQ_two_one, fmtQ_ten_one, fmtQ_speedA, fmtQ_actualA]
  rfl

theorem reportB_eval :
    buildReport 1 3 false 10 500 ⟨3500, 525 / 32, 10, 10, []⟩ 3 1063 = reportB := by
  rw [buildReport, reportB]
  rw [show (((1 : ℤ) : ℚ) * ((3 : ℤ) : ℚ)) = 3 by norm_num]
  rw [show (((3 : ℤ) : ℚ) * 360 / ((stepsPerRev : ℚ) * gearRatio)) = 27 / 320 by
    norm_num [stepsPerRev, microsteps, gearRatio]]
  rw [fmtQ_three_one, fmtQ_ten_one, fmtQ_speedA, fmtQ_actualB]
  rfl

theorem repLoopA_eval :
    repLoop 35 10 0 ((2 : ℤ).toNat) [[(1, 21)], [(1, 21)]] ⟨0, 0⟩ =
      some ([⟨0, 1, 0, 21, 0⟩, ⟨1, 2, 21, 42, 0⟩], 2, ⟨2, 42⟩) := by
  decide

theorem repLoopB_eval :
    repLoop 35 10 500 ((3 : ℤ).toNat) [[(1, 21)], [(1, 21)], [(1, 21)]] ⟨0, 0⟩ =
      some ([⟨0, 1, 0, 21, 500⟩, ⟨1, 2, 521, 542, 500⟩, ⟨2, 3, 1042, 1063, 0⟩],
        3, ⟨3, 1063⟩) := by
  decide

/-- A concrete two-repetition run in which both segments hit the runaway
cutoff: angle 1° (35 steps planned), 10 ms budget, environment ticks that
advance the clock by 21 ms per step. -/
theorem rotateRunA :
    rotateStepper 1 10 false 2 0 10 10 [[(1, 21)], [(1, 21)]] ⟨0, 0⟩ = some outA := by
  rw [rotateStepper, if_neg stepsMagnitude_one_ne]
  simp only
  rw [plannedSteps_one, repLoopA_eval]
  simp only
  rw [clampA_eval]
  rw [show (42 - 0 : ℕ) = 42 from rfl]
  rw [reportA_eval]
  rw [outA]

/-- A concrete three-repetition run with 500 ms inter-repetition delay,
every segment hitting the runaway cutoff. -/
theorem rotateRunB :
    rotateStepper 1 10 false 3 500 10 10 [[(1, 21)], [(1, 21)], [(1, 21)]] ⟨0, 0⟩ =
      some outB := by
  rw [rotateStepper, if_neg stepsMagnitude_one_ne]
  simp only
  rw [plannedSteps_one, repLoopB_eval]
  simp only
  rw [clampA_eval]
  rw [show (1063 - 0 : ℕ) = 1063 from rfl]
  rw [reportB_eval]
  rw [outB]

/-- Witness for C3: the two-repetition run above completes with both
segments aborted by the cutoff, 2 total steps counted (the distance
actually traveled, not the 70 planned), and both repetitions executed. -/
theorem claim_C3_runaway_cutoff_witness :
    stepsMagnitude 1 ≠ 0 ∧
    ((∀ r ∈ outA.reps,
        r.endPos = r.startPos + plannedSignedSteps 1 false ∨
        ((r.endTime - r.startTime : ℕ) : ℤ) > 10 * 2) ∧
      outA.totalStepsMoved = (outA.reps.map (fun r => |r.endPos - r.startPos|)).sum ∧
      outA.reps.length = (2 : ℤ).toNat) :=
  ⟨stepsMagnitude_one_ne,
    claim_C3_runaway_cutoff 1 10 false 2 0 10 10 [[(1, 21)], [(1, 21)]] ⟨0, 0⟩ outA
      stepsMagnitude_one_ne rotateRunA⟩

/-- Witness for C7: in the three-repetition 500 ms-delay run, the first
repetition is followed by the 500 ms suspension. -/
theorem claim_C7_rep_delays_witness :
    stepsMagnitude 1 ≠ 0 ∧
    (outB.reps.get ⟨0, by decide⟩).delayAfter = 500 := by
  refine ⟨stepsMagnitude_one_ne, ?_⟩
  have h := claim_C7_rep_delays 1 10 false 3 500 10 10
    [[(1, 21)], [(1, 21)], [(1, 21)]] ⟨0, 0⟩ outB stepsMagnitude_one_ne rotateRunB
    0 (by decide)
  rw [h]
  decide

/-! ### C9: decimal places of the formatted report fields -/

theorem natDigitsPadded_length (d : ℕ) : ∀ n, (natDigitsPadded d n).length = d := by
  induction d with
  | zero => intro n; rfl
  | succ d ih =>
    intro n
    rw [natDigitsPadded]
    simp [ih]

theorem digitChar_ne_dot (n : ℕ) : (Char.ofNat (48 + n % 10) != '.') = true := by
  have h : n % 10 < 10 := Nat.mod_lt _ (by norm_num)
  set r := n % 10 with hr
  interval_cases r <;> rfl

theorem natDigitsPadded_ne_dot (d : ℕ) :
    ∀ n, ∀ c ∈ natDigitsPadded d n, (c != '.') = true := by
  induction d with
  | zero => intro n c hc; cases hc
  | succ d ih =>
    intro n c hc
    rw [natDigitsPadded] at hc
    rcases List.mem_append.mp hc with h1 | h2
    · exact ih _ c h1
    · rw [List.mem_singleton.mp h2]
      exact digitChar_ne_dot _

theorem takeWhile_all_stop (p : Char → Bool) :
    ∀ (l1 : List Char) (c : Char) (l2 : List Char),
      (∀ x ∈ l1, p x = true) → p c = false →
      (l1 ++ c :: l2).takeWhile p = l1 := by
  intro l1
  induction l1 with
  | nil =>
    intro c l2 _ hc
    simp [List.takeWhile_cons, hc]
  | cons a t ih =>
    intro c l2 hall hc
    rw [List.cons_append, List.takeWhile_cons, if_pos (hall a (by simp))]
    rw [ih c l2 (fun x hx => hall x (List.mem_cons_of_mem a hx)) hc]

/-- The character count after the last decimal point of `x ++ "." ++ fr`
is the length of `fr`, provided `fr` contains no point itself. -/
theorem decimalsOf_append_frac (x : String) (fr : List Char)
    (hfr : ∀ c ∈ fr, (c != '.') = true) :
    decimalsOf (x ++ "." ++ ⟨fr⟩) = fr.length := by
  rw [decimalsOf]
  rw [show (x ++ "." ++ (⟨fr⟩ : String)).data = x.data ++ ('.' :: fr) by
    rw [show (x ++ "." ++ (⟨fr⟩ : String)).data = (x.data ++ ['.']) ++ fr from rfl]
    rw [List.append_assoc]
    rfl]
  rw [List.reverse_append, List.reverse_cons, List.append_assoc]
  rw [show (['.'] ++ x.data.reverse : List Char) = '.' :: x.data.reverse from rfl]
  rw [takeWhile_all_stop _ fr.reverse '.' x.data.reverse
    (fun c hc => hfr c (List.mem_reverse.mp hc)) rfl]
  exact List.length_reverse fr

/-- `fmtQ` always renders exactly `d` characters after the decimal point. -/
theorem decimalsOf_fmtQ (q : ℚ) (d : ℕ) : decimalsOf (fmtQ q d) = d := by
  rw [fmtQ]
  rw [decimalsOf_append_frac _ _ (natDigitsPadded_ne_dot d _)]
  exact natDigitsPadded_length d _

/-- C9 counterexample: the completed run `rotateRunA` produces a report
whose target-speed field "16.41" carries two decimal places — the source
formats it with `String(requiredSpeedRpm, 2)` — refuting "one decimal
place for angle, speed, and acceleration/deceleration". -/
theorem claim_C9_counterexample :
    rotateStepper 1 10 false 2 0 10 10 [[(1, 21)], [(1, 21)]] ⟨0, 0⟩ = some outA ∧
    outA.report = some reportA ∧
    decimalsOf reportA.targetSpeedStr = 2 ∧
    decimalsOf reportA.targetSpeedStr ≠ 1 :=
  ⟨rotateRunA, rfl, by decide, by decide⟩

/-- C9 (amended): in the report produced for every completed request the
angle fields (expected and actual total angle) and the acceleration and
deceleration fields are formatted with exactly one decimal place, while
the target-speed field is formatted with exactly two decimal places. -/
theorem claim_C9_amended_decimals (angle durationMs : ℤ) (reverse : Bool)
    (repetitions repDelayMs : ℤ) (accelRpm decelRpm : ℚ)
    (env : List (List (ℤ × ℕ))) (m : Motor) (out : RotateOutcome) (r : Report)
    (h : rotateStepper angle durationMs reverse repetitions repDelayMs accelRpm
      decelRpm env m = some out)
    (hr : out.report = some r) :
    decimalsOf r.expectedTotalAngleStr = 1 ∧ decimalsOf r.actualAngleStr = 1 ∧
    decimalsOf r.accelStr = 1 ∧ decimalsOf r.decelStr = 1 ∧
    decimalsOf r.targetSpeedStr = 2 := by
  by_cases hz : stepsMagnitude angle = 0
  · rw [rotateStepper, if_pos hz] at h
    cases h
    cases hr
  · rw [rotateStepper, if_neg hz] at h
    simp only at h
    cases hrep : repLoop (plannedSignedSteps angle reverse) durationMs repDelayMs
        repetitions.toNat env m with
    | none => rw [hrep] at h; cases h
    | some x =>
      obtain ⟨rs, tot, mf⟩ := x
      rw [hrep] at h
      simp only [Option.some.injEq] at h
      subst h
      simp only [Option.some.injEq] at hr
      rw [← hr]
      simp [buildReport, decimalsOf_fmtQ]

/-- Witness for the amended C9 at the concrete run `rotateRunA`. -/
theorem claim_C9_amended_decimals_witness :
    rotateStepper 1 10 false 2 0 10 10 [[(1, 21)], [(1, 21)]] ⟨0, 0⟩ = some outA ∧
    outA.report = some reportA ∧
    (decimalsOf reportA.expectedTotalAngleStr = 1 ∧
      decimalsOf reportA.actualAngleStr = 1 ∧
      decimalsOf reportA.accelStr = 1 ∧ decimalsOf reportA.decelStr = 1 ∧
      decimalsOf reportA.targetSpeedStr = 2) :=
  ⟨rotateRunA, rfl,
    claim_C9_amended_decimals 1 10 false 2 0 10 10 [[(1, 21)], [(1, 21)]] ⟨0, 0⟩
      outA reportA rotateRunA rfl⟩

end Turntable
